import Mathlib

/-!
Verification of the crypto-tracker repository (React front-end) against its
natural-language specification.

The development shallowly embeds the code under `src/` into Lean:

* `CryptoCard.jsx` / `CryptoModal.jsx` price formatters (`formatPrice`,
  `Intl.NumberFormat('en-US', currency)`) become pure functions on `ℚ`
  producing `String`s.  JavaScript numbers are idealised as exact rationals;
  `Number.prototype.toFixed` is modelled by its ECMA-262 definition (extract
  the sign, then round the magnitude to the nearest multiple of `10^-d`,
  ties upward).
* The SVG chart geometry of `CryptoModal.renderChart` (`scaleX`, `scaleY`,
  y-axis ticks, hover hit-rectangles) becomes rational arithmetic.  The one
  place the source can produce `NaN` (division `0/0` when the series has a
  single sample) is modelled faithfully with a `JsNum` type carrying `NaN`
  and infinities, mirroring IEEE semantics of JavaScript division.
* The React component state (`App.jsx`, `CryptoModal.jsx`) becomes explicit
  state records with step functions; each `useState` setter application in a
  handler becomes a field update, and every network completion becomes an
  event, so out-of-order completions are expressible as event traces.
-/

namespace CryptoTracker

/-! ### Rational-number helpers shared by the embedded code -/

/-- Floor of a rational, computable by the kernel (`q.num / q.den` with the
integer division that floors for the positive denominators of `ℚ`). -/
def ratFloor (q : ℚ) : ℤ := q.num / q.den

/-- Round to the nearest integer, ties upward (ECMA-262 `toFixed` tie rule
for the non-negative magnitudes it is applied to). -/
def roundHalfUp (q : ℚ) : ℤ := ratFloor (q + 1/2)

/-- The integer `round(|q| * 10^d)`, i.e. the digit string of `q` rounded to
`d` fraction digits, read as a natural number. -/
def toFixedScaled (d : ℕ) (q : ℚ) : ℕ := (roundHalfUp (|q| * 10 ^ d)).toNat

/-- Left-pad a digit string with zeros up to width `d`. -/
def zeroPad (d : ℕ) (s : String) : String :=
  ⟨List.replicate (d - s.length) '0'⟩ ++ s

/-- Print the scaled natural `m` with a decimal point before the last `d`
digits (`fixedRender 4523 2 = "45.23"`). -/
def fixedRender (m d : ℕ) : String :=
  if d = 0 then Nat.repr m
  else Nat.repr (m / 10 ^ d) ++ "." ++ zeroPad d (Nat.repr (m % 10 ^ d))

/-- ECMA-262 `Number.prototype.toFixed(d)` on the idealised rational value:
sign first, then the magnitude rounded to `d` fraction digits, ties up. -/
def jsToFixed (d : ℕ) (q : ℚ) : String :=
  (if q < 0 then "-" else "") ++ fixedRender (toFixedScaled d q) d

/-- Insert `","` thousands separators into the decimal representation of a
natural number, as the `en-US` locale does (fuel-based recursion on groups
of three digits; the fuel `n` always dominates the number of groups). -/
def groupNatAux : ℕ → ℕ → String
  | 0, n => Nat.repr n
  | f + 1, n =>
      if n < 1000 then Nat.repr n
      else groupNatAux f (n / 1000) ++ "," ++ zeroPad 3 (Nat.repr (n % 1000))

def groupNat (n : ℕ) : String := groupNatAux n n

/-- `Intl.NumberFormat('en-US', { style: 'currency', currency: 'USD' })`:
dollar sign, thousands separators, exactly two fraction digits (the USD
default; `CryptoCard` passes `minimumFractionDigits: 2` explicitly, which
coincides with that default).  Rounding mode `halfExpand` agrees with
half-up on the non-negative inputs of interest. -/
def intlCurrencyUSD (q : ℚ) : String :=
  (if q < 0 then "-" else "") ++ "$" ++
    groupNat (toFixedScaled 2 q / 10 ^ 2) ++ "." ++
    zeroPad 2 (Nat.repr (toFixedScaled 2 q % 10 ^ 2))

/-! ### The two `formatPrice` functions

`CryptoCard.jsx` (`src/unnamed/part_001`):
```js
function formatPrice(price) {
  if (!price) return '$0.00'
  if (price < 0.01) return `$${price.toFixed(6)}`
  if (price < 1)    return `$${price.toFixed(4)}`
  if (price < 1000) return `$${price.toFixed(2)}`
  return new Intl.NumberFormat('en-US', { style: 'currency',
    currency: 'USD', minimumFractionDigits: 2 }).format(price)
}
```
`CryptoModal.jsx` (`src/unnamed/part_002`) is identical except that the
`price < 1000` branch is absent.  `!price` on a number is true exactly for
`0` (and `NaN`, which cannot reach an idealised rational model). -/

def cardFormatPrice (price : ℚ) : String :=
  if price = 0 then "$0.00"
  else if price < 1/100 then "$" ++ jsToFixed 6 price
  else if price < 1 then "$" ++ jsToFixed 4 price
  else if price < 1000 then "$" ++ jsToFixed 2 price
  else intlCurrencyUSD price

def modalFormatPrice (price : ℚ) : String :=
  if price = 0 then "$0.00"
  else if price < 1/100 then "$" ++ jsToFixed 6 price
  else if price < 1 then "$" ++ jsToFixed 4 price
  else intlCurrencyUSD price

/-- An absent (`undefined`) argument is falsy, like `0`; the card formatter
applied to an optional input. -/
def cardFormatPriceOpt : Option ℚ → String
  | none => "$0.00"
  | some p => cardFormatPrice p

/-! ### Relating the two formatters: helper lemmas -/

/-! ### Chart geometry (`CryptoModal.renderChart`, `src/unnamed/part_002`)

Viewport constants from the source: `W = 800`, `H = 300`,
`PAD = { top: 20, right: 20, bottom: 40, left: 60 }`. -/

def svgW : ℚ := 800
def svgH : ℚ := 300
def padTop : ℚ := 20
def padRight : ℚ := 20
def padBottom : ℚ := 40
def padLeft : ℚ := 60
def chartW : ℚ := svgW - padLeft - padRight
def chartH : ℚ := svgH - padTop - padBottom

/-- `Math.min(...prices)` over the mapped price list (`renderChart` only runs
on non-empty data; the `[]` default is unreachable there). -/
def minPrices : List ℚ → ℚ
  | [] => 0
  | p :: ps => ps.foldl min p

/-- `Math.max(...prices)`. -/
def maxPrices : List ℚ → ℚ
  | [] => 0
  | p :: ps => ps.foldl max p

/-- `const rangeP = maxP - minP || 1` — `|| 1` substitutes `1` exactly when
the difference is `0` (the only falsy value reachable here). -/
def rangeP (l : List ℚ) : ℚ :=
  if maxPrices l - minPrices l = 0 then 1 else maxPrices l - minPrices l

/-- JavaScript number results of the chart arithmetic: a rational, or one of
the IEEE non-finite values that `x / 0` produces. -/
inductive JsNum where
  | nan
  | posInf
  | negInf
  | num (q : ℚ)
deriving DecidableEq

/-- JavaScript division: `0/0 = NaN`, `±a/0 = ±Infinity`, else exact. -/
def jsDiv (a b : ℚ) : JsNum :=
  if b = 0 then (if a = 0 then .nan else if 0 < a then .posInf else .negInf)
  else .num (a / b)

def jsMulConst : JsNum → ℚ → JsNum
  | .nan, _ => .nan
  | .posInf, c => if c = 0 then .nan else if 0 < c then .posInf else .negInf
  | .negInf, c => if c = 0 then .nan else if 0 < c then .negInf else .posInf
  | .num q, c => .num (q * c)

def jsAddConst (c : ℚ) : JsNum → JsNum
  | .nan => .nan
  | .posInf => .posInf
  | .negInf => .negInf
  | .num q => .num (c + q)

/-- `const scaleX = (i) => PAD.left + (i / (chartData.length - 1)) * chartW`
with JavaScript division semantics: for a 1-sample series this is
`60 + (0/0) * 720`, i.e. `NaN`. -/
def chartScaleX (n i : ℕ) : JsNum :=
  jsAddConst padLeft (jsMulConst (jsDiv (i : ℚ) ((n : ℚ) - 1)) chartW)

/-- The same map in the well-defined regime `n ≥ 2`, as a rational. -/
def scaleXQ (n i : ℕ) : ℚ := padLeft + (i : ℚ) / ((n : ℚ) - 1) * chartW

/-- `const scaleY = (p) => PAD.top + chartH - ((p - minP) / rangeP) * chartH`;
total on ℚ because `rangeP` is never zero. -/
def scaleY (l : List ℚ) (p : ℚ) : ℚ :=
  padTop + chartH - (p - minPrices l) / rangeP l * chartH

/-- Grid-line price `i` of 5: `maxP - (i / (yLabels - 1)) * rangeP`. -/
def tickPrice (l : List ℚ) (i : ℕ) : ℚ := maxPrices l - (i : ℚ) / 4 * rangeP l

/-- The y-axis label formatting of `renderChart`:
`price >= 1000 ? \`$\${(price/1000).toFixed(1)}k\` : price < 1 ?
toFixed(4) : toFixed(0)`. -/
def tickLabel (price : ℚ) : String :=
  if 1000 ≤ price then "$" ++ jsToFixed 1 (price / 1000) ++ "k"
  else if price < 1 then "$" ++ jsToFixed 4 price
  else "$" ++ jsToFixed 0 price

/-- The 5 horizontal grid lines with their labels. -/
def yTicks (l : List ℚ) : List (ℚ × String) :=
  (List.range 5).map fun i => (tickPrice l i, tickLabel (tickPrice l i))

/-! Hover hit-rectangles: rect `i` has
`x = scaleX(i) - chartW / chartData.length / 2`, `width = chartW / chartData.length`. -/

def bandWidth (n : ℕ) : ℚ := chartW / (n : ℚ)

def bandLo (n i : ℕ) : ℚ := scaleXQ n i - bandWidth n / 2

/-- Pointer abscissa `x` lies in hit-rectangle `i` of an `n`-sample series. -/
def inBand (n i : ℕ) (x : ℚ) : Prop :=
  bandLo n i ≤ x ∧ x ≤ bandLo n i + bandWidth n

instance (n i : ℕ) (x : ℚ) : Decidable (inBand n i x) := by
  unfold inBand; infer_instance

/-! ### CryptoModal component state

`useState` initial values: `chartData = []`, `loadingChart = true`,
`days = 7`, `hovered = null`.  Each network completion and each pointer
event is a state transition; `fetchChartData` applies its result to the
state unconditionally (there is no generation counter or cancellation), so
a `resolveFetch` step ignores which key the response was for. -/

structure Sample where
  date : ℤ
  price : ℚ
deriving DecidableEq

/-- `setHovered({ ...d, x: scaleX(i), y: scaleY(d.price) })` -/
structure Hover where
  date : ℤ
  price : ℚ
  x : JsNum
  y : ℚ
deriving DecidableEq

def mkHover (pts : List Sample) (d : Sample) (i : ℕ) : Hover :=
  { date := d.date, price := d.price,
    x := chartScaleX pts.length i,
    y := scaleY (pts.map Sample.price) d.price }

/-- A chart request key `(instrumentId, periodDays)`. -/
abbrev ChartKey := String × ℕ

structure ModalState where
  chartData : List Sample
  loadingChart : Bool
  days : ℕ
  hovered : Option Hover
deriving DecidableEq

def initModal : ModalState :=
  { chartData := [], loadingChart := true, days := 7, hovered := none }

inductive ModalEvent where
  | startFetch (key : ChartKey)
  | resolveFetch (key : ChartKey) (pts : List Sample)
  | failFetch (key : ChartKey)
  | mouseEnter (i : ℕ)
  | mouseLeave
  | setDays (d : ℕ)

/-- One step of the component, read off the handlers in the source:
`fetchChartData` start (`setLoadingChart(true)`), its resolution
(`setChartData(points)` then `setLoadingChart(false)` — for whatever key the
response belonged to), its failure (`finally` alone), the hover rect
`onMouseEnter`, the svg `onMouseLeave`, and the period button `setDays`.
Neither `setDays` nor a fetch completion touches `hovered`. -/
def stepModal (s : ModalState) : ModalEvent → ModalState
  | .startFetch _ => { s with loadingChart := true }
  | .resolveFetch _ pts => { s with chartData := pts, loadingChart := false }
  | .failFetch _ => { s with loadingChart := false }
  | .mouseEnter i =>
      match s.chartData[i]? with
      | some d => { s with hovered := some (mkHover s.chartData d i) }
      | none => s
  | .mouseLeave => { s with hovered := none }
  | .setDays d => { s with days := d }

def runModal (s : ModalState) (es : List ModalEvent) : ModalState :=
  es.foldl stepModal s

/-! ### App component state (`App.jsx`, `src/unnamed/part_003`) -/

structure Instrument where
  id : String
  name : String
  symbol : String
  current_price : ℚ
deriving DecidableEq

structure AppState where
  cryptos : List Instrument
  filtered : List Instrument
  search : String
  loading : Bool
  error : Option String
deriving DecidableEq

def initApp : AppState :=
  { cryptos := [], filtered := [], search := "", loading := true, error := none }

/-- Substring occurrence on character lists (`String.prototype.includes`). -/
def strOccurs : List Char → List Char → Bool
  | sub, [] => sub.isEmpty
  | sub, c :: t => sub.isPrefixOf (c :: t) || strOccurs sub t

/-- `s.includes(sub)` -/
def jsIncludes (s sub : String) : Bool := strOccurs sub.data s.data

/-- `s.toLowerCase()` (ASCII-faithful idealisation). -/
def jsToLower (s : String) : String := ⟨s.data.map Char.toLower⟩

/-- The filter predicate of the search `useEffect`, applied to an
already-lowercased term:
`coin.name.toLowerCase().includes(term) || coin.symbol.toLowerCase().includes(term)`. -/
def matchesTerm (term : String) (coin : Instrument) : Bool :=
  jsIncludes (jsToLower coin.name) term || jsIncludes (jsToLower coin.symbol) term

/-- The derivation `setFiltered(cryptos.filter(...))` with
`term = search.toLowerCase()`. -/
def filterCryptos (cryptos : List Instrument) (search : String) : List Instrument :=
  cryptos.filter (matchesTerm (jsToLower search))

/-- Net effect of a successful `fetchCryptos` completion:
`setError(null); setCryptos(data); setFiltered(data); setLoading(false)`. -/
def fetchCryptosSuccess (data : List Instrument) (s : AppState) : AppState :=
  { s with error := none, cryptos := data, filtered := data, loading := false }

/-- Net effect of a failed `fetchCryptos` (network error or `!response.ok`):
`setError('Failed to load data. Please try again.'); setLoading(false)` —
`cryptos` and `filtered` are not written. -/
def fetchCryptosFailure (s : AppState) : AppState :=
  { s with error := some "Failed to load data. Please try again.", loading := false }

/-- The search `useEffect` re-derivation of `filtered`. -/
def filterEffect (s : AppState) : AppState :=
  { s with filtered := filterCryptos s.cryptos s.search }

/-- What the App JSX renders the list under: `!loading && !error &&
<CryptoList cryptos={filtered} ... />`. -/
def showsList (s : AppState) : Bool := !s.loading && s.error.isNone

/-- The error banner is rendered exactly when `error` is non-null. -/
def showsError (s : AppState) : Bool := s.error.isSome


/-! ## Bridge and helper lemmas -/

theorem ratFloor_eq_floor (q : ℚ) : ratFloor q = ⌊q⌋ := (Rat.floor_def).symm

theorem groupNat_eq_repr (n : ℕ) (h : n < 1000) : groupNat n = Nat.repr n := by
  cases n with
  | zero => rfl
  | succ k => simp [groupNat, groupNatAux, h]

theorem toFixedScaled_lt (x : ℚ) (h0 : 0 ≤ x) (h2 : x < 199999/200) :
    toFixedScaled 2 x < 100000 := by
  have hfl : ⌊x * 10 ^ 2 + 1/2⌋ < 100000 := by
    apply Int.floor_lt.mpr
    push_cast
    nlinarith
  unfold toFixedScaled roundHalfUp
  rw [ratFloor_eq_floor, abs_of_nonneg h0]
  omega

theorem toFixedScaled_carry (x : ℚ) (h1 : 199999/200 ≤ x) (h2 : x < 1000) :
    toFixedScaled 2 x = 100000 := by
  have hfl : ⌊x * 10 ^ 2 + 1/2⌋ = 100000 := by
    apply Int.floor_eq_iff.mpr
    constructor <;> push_cast <;> nlinarith
  unfold toFixedScaled roundHalfUp
  rw [ratFloor_eq_floor, abs_of_nonneg (by linarith : (0:ℚ) ≤ x)]
  omega

theorem card_eq_intl (x : ℚ) (h1 : 1 ≤ x) (h2 : x < 199999/200) :
    cardFormatPrice x = intlCurrencyUSD x := by
  have hx0 : ¬ x = 0 := by intro h; rw [h] at h1; norm_num at h1
  have hxneg : ¬ x < 0 := by linarith
  have hlt1000 : x < 1000 := by linarith
  have hmlt : toFixedScaled 2 x < 100000 := toFixedScaled_lt x (by linarith) h2
  have hgrp : groupNat (toFixedScaled 2 x / 10 ^ 2) = Nat.repr (toFixedScaled 2 x / 10 ^ 2) := by
    apply groupNat_eq_repr
    omega
  unfold cardFormatPrice intlCurrencyUSD jsToFixed fixedRender
  rw [if_neg hx0, if_neg (by linarith : ¬ x < 1/100), if_neg (by linarith : ¬ x < 1),
    if_pos hlt1000, if_neg hxneg, if_neg (by norm_num : ¬ (2:ℕ) = 0), hgrp]
  apply String.ext
  simp [String.data_append]

theorem card_eq_intl_ge (x : ℚ) (h : 1000 ≤ x) :
    cardFormatPrice x = intlCurrencyUSD x := by
  unfold cardFormatPrice
  rw [if_neg (by intro hh; rw [hh] at h; norm_num at h),
    if_neg (by linarith), if_neg (by linarith), if_neg (by linarith)]

theorem modal_eq_intl (x : ℚ) (h1 : 1 ≤ x) : modalFormatPrice x = intlCurrencyUSD x := by
  unfold modalFormatPrice
  rw [if_neg (by intro hh; rw [hh] at h1; norm_num at h1),
    if_neg (by linarith), if_neg (by linarith)]

theorem card_carry (x : ℚ) (ha : 199999/200 ≤ x) (hb : x < 1000) :
    cardFormatPrice x = "$1000.00" := by
  have h1 : (1:ℚ) ≤ x := by linarith
  unfold cardFormatPrice jsToFixed
  rw [if_neg (by intro hh; rw [hh] at h1; norm_num at h1),
    if_neg (by linarith), if_neg (by linarith), if_pos hb,
    if_neg (by linarith : ¬ x < 0), toFixedScaled_carry x ha hb]
  decide

theorem intl_carry (x : ℚ) (ha : 199999/200 ≤ x) (hb : x < 1000) :
    intlCurrencyUSD x = "$1,000.00" := by
  unfold intlCurrencyUSD
  rw [if_neg (by intro hh; linarith), toFixedScaled_carry x ha hb]
  decide

theorem formats_agree_lt_one (x : ℚ) (h : x < 1) :
    cardFormatPrice x = modalFormatPrice x := by
  unfold cardFormatPrice modalFormatPrice
  by_cases h0 : x = 0
  · rw [if_pos h0, if_pos h0]
  · by_cases ha : x < 1/100
    · rw [if_neg h0, if_pos ha, if_neg h0, if_pos ha]
    · rw [if_neg h0, if_neg ha, if_pos h, if_neg h0, if_neg ha, if_pos h]

theorem chartScaleX_eq_num (n i : ℕ) (h : 2 ≤ n) :
    chartScaleX n i = .num (scaleXQ n i) := by
  have h2 : (2 : ℚ) ≤ (n : ℚ) := by exact_mod_cast h
  have hne : ((n : ℚ) - 1) ≠ 0 := by intro hc; rw [sub_eq_zero] at hc; rw [hc] at h2; norm_num at h2
  simp [chartScaleX, jsDiv, hne, jsMulConst, jsAddConst, scaleXQ]


theorem strOccurs_nil (l : List Char) : strOccurs [] l = true := by
  cases l <;> simp [strOccurs, List.isPrefixOf]

theorem matchesTerm_empty (a : Instrument) : matchesTerm (jsToLower "") a = true := by
  have h : (jsToLower "").data = [] := rfl
  unfold matchesTerm jsIncludes
  rw [h, strOccurs_nil, Bool.true_or]

/-- Evaluate `toFixedScaled` through `Int.floor` facts. -/
theorem toFixedScaled_eq (d : ℕ) (q : ℚ) (m : ℕ) (h0 : 0 ≤ q)
    (h : ⌊q * 10 ^ d + 1/2⌋ = (m : ℤ)) : toFixedScaled d q = m := by
  unfold toFixedScaled roundHalfUp
  rw [ratFloor_eq_floor, abs_of_nonneg h0, h]
  exact Int.toNat_natCast m

/-! ## The claims -/

/-- C1: the spec mandates that when chart request A = (instrumentId,
periodDays) is superseded by request B, a late A-resolution must not
overwrite the Series stored for B.  The source `fetchChartData` applies any
resolution unconditionally, so on the trace
`start A, start B, resolve B, resolve A` the stored series is the one
fetched for A — the stale response wins, contradicting the spec's mandated
guard (which the spec itself notes the source does not enforce). -/
theorem chartStore_late_resolution_overwrites :
    (runModal initModal
      [.startFetch ("bitcoin", 7), .startFetch ("bitcoin", 30),
       .resolveFetch ("bitcoin", 30) [⟨1, 2⟩],
       .resolveFetch ("bitcoin", 7) [⟨1, 3⟩]]).chartData = [⟨1, 3⟩]
    ∧ ([⟨1, 3⟩] : List Sample) ≠ [⟨1, 2⟩] := by
  refine ⟨rfl, ?_⟩
  intro h
  have := List.head_eq_of_cons_eq h
  rw [Sample.mk.injEq] at this
  norm_num at this

/-- C2 (counterexample): after a successful load of a non-empty list and a
failed refresh, the store keeps the list and sets the exact error message,
but the claim's "the UI keeps showing the stale list" is false: the JSX
guard `!loading && !error` hides the list whenever `error` is set. -/
theorem marketStore_error_hides_list_cex :
    (fetchCryptosFailure
      (fetchCryptosSuccess [⟨"bitcoin", "Bitcoin", "btc", 60000⟩] initApp)).cryptos
      = [⟨"bitcoin", "Bitcoin", "btc", 60000⟩]
    ∧ (fetchCryptosFailure
        (fetchCryptosSuccess [⟨"bitcoin", "Bitcoin", "btc", 60000⟩] initApp)).error
      = some "Failed to load data. Please try again."
    ∧ showsList (fetchCryptosFailure
        (fetchCryptosSuccess [⟨"bitcoin", "Bitcoin", "btc", 60000⟩] initApp)) = false :=
  ⟨rfl, rfl, rfl⟩

/-- C2 (amended): every failed refresh leaves `cryptos` and `filtered`
untouched and sets the error message to exactly
"Failed to load data. Please try again."; however the UI then renders the
error banner instead of the list — the list is hidden while the error is
displayed, not shown stale. -/
theorem marketStore_failure_amended (s : AppState) :
    (fetchCryptosFailure s).cryptos = s.cryptos
    ∧ (fetchCryptosFailure s).filtered = s.filtered
    ∧ (fetchCryptosFailure s).error = some "Failed to load data. Please try again."
    ∧ showsList (fetchCryptosFailure s) = false
    ∧ showsError (fetchCryptosFailure s) = true :=
  ⟨rfl, rfl, rfl, rfl, rfl⟩

/-- C4 (counterexample): hover state survives a period switch.  After the
7-day series loads, the pointer enters band 0, the user switches to 30
days and the new series loads; `hovered` still holds the sample derived
from the old series (price 5), instead of being reset to Idle. -/
theorem hover_survives_period_switch_cex :
    (runModal initModal
      [.resolveFetch ("bitcoin", 7) [⟨1, 5⟩], .mouseEnter 0, .setDays 30,
       .startFetch ("bitcoin", 30), .resolveFetch ("bitcoin", 30) [⟨2, 6⟩]]).hovered
      = some (mkHover [⟨1, 5⟩] ⟨1, 5⟩ 0)
    ∧ (some (mkHover [⟨1, 5⟩] ⟨1, 5⟩ 0) : Option Hover) ≠ none :=
  ⟨rfl, by simp⟩

/-- C4 (amended): the tracker returns to Idle when the pointer leaves the
plot (`onMouseLeave`), and an instrument switch remounts the modal whose
initial state has no hover; but a period change (`setDays`) and a series
replacement (`resolveFetch`) leave `hovered` untouched, so hover state
derived from the old series persists across a period switch until the
pointer leaves or re-enters. -/
theorem hover_reset_amended (s : ModalState) :
    (stepModal s .mouseLeave).hovered = none
    ∧ (∀ d, (stepModal s (.setDays d)).hovered = s.hovered)
    ∧ (∀ k pts, (stepModal s (.resolveFetch k pts)).hovered = s.hovered)
    ∧ (∀ k, (stepModal s (.startFetch k)).hovered = s.hovered)
    ∧ initModal.hovered = none :=
  ⟨rfl, fun _ => rfl, fun _ _ => rfl, fun _ => rfl, rfl⟩

/-- C7: for a single-sample series the source `scaleX` computes
`60 + (0/0) * 720 = NaN`, not the left padding the spec's fixed policy
requires — the geometry is not NaN-free at N = 1. -/
theorem scaleX_singleton_nan :
    chartScaleX 1 0 = JsNum.nan ∧ JsNum.nan ≠ JsNum.num padLeft := by
  constructor
  · norm_num [chartScaleX, jsDiv, jsMulConst, jsAddConst]
  · simp

/-- C9: the filter derivation is a pure function of the list and the term;
it returns exactly the instruments whose lowercased name or symbol contains
the lowercased term, in original order (it is a sublist of the input); it
is idempotent; and the empty term returns the original list unchanged. -/
theorem filterEngine_props (l : List Instrument) (term : String) :
    (∀ c, c ∈ filterCryptos l term ↔ c ∈ l ∧ matchesTerm (jsToLower term) c = true)
    ∧ (filterCryptos l term).Sublist l
    ∧ filterCryptos (filterCryptos l term) term = filterCryptos l term
    ∧ filterCryptos l "" = l := by
  refine ⟨fun c => List.mem_filter, List.filter_sublist l, ?_, ?_⟩
  · unfold filterCryptos
    rw [List.filter_filter]
    simp only [Bool.and_self]
  · unfold filterCryptos
    exact List.filter_eq_self.mpr fun a _ => matchesTerm_empty a


/-- C3 (counterexample): with N = 2 samples the plot spans
`[padLeft, svgW - padRight] = [60, 780]` but the two hit-rectangles are
`[-120, 240]` and `[600, 960]`; the pointer abscissa `420` lies inside the
plot yet inside no band, so the bands do not cover the plot width. -/
theorem hitRegions_gap_cex :
    (∀ i, i < 2 → ¬ inBand 2 i 420)
    ∧ padLeft ≤ 420 ∧ (420 : ℚ) ≤ svgW - padRight := by
  refine ⟨?_, by norm_num [padLeft], by norm_num [svgW, padRight]⟩
  intro i hi
  interval_cases i <;>
    norm_num [inBand, bandLo, bandWidth, scaleXQ, chartW, svgW, padLeft, padRight]

/-- C3 (amended): the N hit-regions are equal-width (`chartW / N`)
non-overlapping bands centred on `scaleX(i)`, and hovering band `i` yields
the sample with index `i`; but the bands do not partition the plot width —
consecutive bands are separated by a gap of `chartW / (N·(N−1))` (and the
outer bands overhang the plot edges), so pointer positions in the gaps hit
no band. -/
theorem hitRegions_amended (n : ℕ) (hn : 2 ≤ n) :
    (∀ i, bandLo n i + bandWidth n / 2 = scaleXQ n i)
    ∧ (∀ i j, i < j → j < n → bandLo n i + bandWidth n < bandLo n j)
    ∧ (∀ i, bandLo n (i + 1) - (bandLo n i + bandWidth n)
        = chartW / ((n : ℚ) * ((n : ℚ) - 1)))
    ∧ (∀ (s : ModalState) (i : ℕ) (d : Sample), s.chartData[i]? = some d →
        (stepModal s (.mouseEnter i)).hovered = some (mkHover s.chartData d i)) := by
  have hn2 : (2 : ℚ) ≤ (n : ℚ) := by exact_mod_cast hn
  have hpos : (0 : ℚ) < (n : ℚ) - 1 := by linarith
  have hnpos : (0 : ℚ) < (n : ℚ) := by linarith
  have hne : ((n : ℚ) - 1) ≠ 0 := ne_of_gt hpos
  have hn0 : ((n : ℚ)) ≠ 0 := ne_of_gt hnpos
  have hcw : (0 : ℚ) < chartW := by norm_num [chartW, svgW, padLeft, padRight]
  refine ⟨fun i => by unfold bandLo; ring, ?_, ?_, ?_⟩
  · intro i j hij hj
    have hji : (1 : ℚ) ≤ (j : ℚ) - (i : ℚ) := by
      have h1 : (i : ℚ) + 1 ≤ (j : ℚ) := by exact_mod_cast hij
      linarith
    have hdiff : scaleXQ n j - scaleXQ n i
        = ((j : ℚ) - (i : ℚ)) * (chartW / ((n : ℚ) - 1)) := by
      unfold scaleXQ; field_simp; ring
    have hA : chartW / (n : ℚ) < chartW / ((n : ℚ) - 1) := by
      rw [div_lt_div_iff₀ hnpos hpos]
      nlinarith
    have hB : chartW / ((n : ℚ) - 1) ≤ ((j : ℚ) - (i : ℚ)) * (chartW / ((n : ℚ) - 1)) :=
      le_mul_of_one_le_left (le_of_lt (div_pos hcw hpos)) hji
    have hbw : bandWidth n = chartW / (n : ℚ) := rfl
    unfold bandLo
    linarith
  · intro i
    unfold bandLo bandWidth scaleXQ
    push_cast
    field_simp
    ring
  · intro s i d h
    simp [stepModal, h]

/-- C3 (witness): the amended statement instantiated at N = 2 — band 0 is
centred on `scaleX(0)` and ends strictly before band 1 starts. -/
theorem hitRegions_amended_witness :
    bandLo 2 0 + bandWidth 2 / 2 = scaleXQ 2 0
    ∧ bandLo 2 0 + bandWidth 2 < bandLo 2 1 := by
  obtain ⟨h1, h2, -, -⟩ := hitRegions_amended 2 (by norm_num)
  exact ⟨h1 0, h2 0 1 (by norm_num) (by norm_num)⟩

/-- C5 (counterexample): for the flat 2-sample series `[5, 5]` (all prices
equal, so `minP = maxP` and `rangeP` is substituted by 1), `scaleY(maxP)`
is the bottom edge `260`, not the top edge `20` the claim asserts. -/
theorem scaleY_flat_cex :
    2 ≤ ([5, 5] : List ℚ).length
    ∧ scaleY [5, 5] (maxPrices [5, 5]) ≠ padTop := by
  refine ⟨by norm_num, ?_⟩
  norm_num [scaleY, maxPrices, minPrices, rangeP, List.foldl, padTop, chartH,
    svgH, padBottom]

/-- C5 (amended): for every series with at least two samples whose prices
are not all equal, `scaleY(minP)` is the bottom edge of the plot
(`padTop + chartH`) and `scaleY(maxP)` the top edge (`padTop`); for a flat
series the substituted range 1 sends every price — in particular both
`minP` and `maxP` — to the bottom edge. -/
theorem scaleY_endpoints_amended (l lf : List ℚ) (_hlen : 2 ≤ l.length)
    (hlt : minPrices l < maxPrices l) (hflat : minPrices lf = maxPrices lf) :
    scaleY l (minPrices l) = padTop + chartH
    ∧ scaleY l (maxPrices l) = padTop
    ∧ scaleY lf (maxPrices lf) = padTop + chartH
    ∧ scaleY lf (minPrices lf) = padTop + chartH := by
  have hne : maxPrices l - minPrices l ≠ 0 := sub_ne_zero.mpr (ne_of_gt hlt)
  have hflat0 : maxPrices lf - minPrices lf = 0 := by rw [hflat, sub_self]
  refine ⟨?_, ?_, ?_, ?_⟩
  · unfold scaleY; rw [sub_self, zero_div, zero_mul, sub_zero]
  · unfold scaleY rangeP; rw [if_neg hne, div_self hne, one_mul]; ring
  · unfold scaleY; rw [hflat0, zero_div, zero_mul, sub_zero]
  · unfold scaleY; rw [hflat, sub_self, zero_div, zero_mul, sub_zero]


/-- C5 (witness): the amended statement at the non-flat series `[1, 3]` and
the flat series `[5, 5]`. -/
theorem scaleY_endpoints_witness :
    scaleY [1, 3] (minPrices [1, 3]) = padTop + chartH
    ∧ scaleY [1, 3] (maxPrices [1, 3]) = padTop
    ∧ scaleY [5, 5] (maxPrices [5, 5]) = padTop + chartH
    ∧ scaleY [5, 5] (minPrices [5, 5]) = padTop + chartH :=
  scaleY_endpoints_amended [1, 3] [5, 5] (by norm_num)
    (by norm_num [minPrices, maxPrices, List.foldl, min_def, max_def])
    (by norm_num [minPrices, maxPrices, List.foldl, min_def, max_def])

/-- C6 (counterexample): for the flat series `[5, 5]` (`minP = maxP = 5`,
range substituted by 1) the lowest of the 5 ticks has price `4 ≠ minP = 5`:
the ticks do not end at the minimum price of the series. -/
theorem yTicks_flat_cex :
    (yTicks [5, 5]).get? 4 = some (4, "$4")
    ∧ minPrices [5, 5] = 5 ∧ (4 : ℚ) ≠ 5 := by
  have hfs : toFixedScaled 0 4 = 4 :=
    toFixedScaled_eq 0 4 4 (by norm_num)
      (by apply Int.floor_eq_iff.mpr; constructor <;> push_cast <;> norm_num)
  have hp : tickPrice [5, 5] 4 = 4 := by
    norm_num [tickPrice, rangeP, minPrices, maxPrices, List.foldl]
  have hl : tickLabel 4 = "$4" := by
    unfold tickLabel jsToFixed
    rw [if_neg (show ¬ ((1000 : ℚ) ≤ 4) by norm_num),
      if_neg (show ¬ ((4 : ℚ) < 1) by norm_num),
      if_neg (show ¬ ((4 : ℚ) < 0) by norm_num), hfs]
    decide
  refine ⟨?_, by norm_num [minPrices, List.foldl], by norm_num⟩
  simp [yTicks, List.getElem?_map, List.getElem?_range, hp, hl]

/-- C6 (amended): for every non-empty series, `renderChart` produces exactly
5 ticks; tick `j` carries price `maxP - j/4 * rangeP`, so ticks start at
`maxP`, are evenly spaced by `rangeP / 4`, and the lowest tick equals the
minimum price whenever the series is not flat (for a flat series the ticks
span `[maxP - 1, maxP]` because of the substituted range); every label
follows the magnitude rule (≥ 1000 → "$…k" with one decimal, < 1 → four
decimals, else whole dollars). -/
theorem yTicks_amended (l : List ℚ) (_hne : l ≠ []) :
    (yTicks l).length = 5
    ∧ (∀ j, j < 5 → (yTicks l).get? j = some (tickPrice l j, tickLabel (tickPrice l j)))
    ∧ tickPrice l 0 = maxPrices l
    ∧ (∀ j, tickPrice l j - tickPrice l (j + 1) = rangeP l / 4)
    ∧ (minPrices l < maxPrices l → tickPrice l 4 = minPrices l)
    ∧ (∀ p, tickLabel p = if 1000 ≤ p then "$" ++ jsToFixed 1 (p / 1000) ++ "k"
        else if p < 1 then "$" ++ jsToFixed 4 p else "$" ++ jsToFixed 0 p) := by
  refine ⟨by simp [yTicks], ?_, ?_, ?_, ?_, fun p => rfl⟩
  · intro j hj
    simp [yTicks, List.getElem?_map, List.getElem?_range, hj]
  · unfold tickPrice
    norm_num
  · intro j
    unfold tickPrice
    push_cast
    ring
  · intro h
    have hne : maxPrices l - minPrices l ≠ 0 := sub_ne_zero.mpr (ne_of_gt h)
    unfold tickPrice rangeP
    rw [if_neg hne]
    push_cast
    ring

/-- C6 (witness): the amended statement at the non-flat series `[1, 3]`. -/
theorem yTicks_witness :
    (yTicks [1, 3]).length = 5
    ∧ tickPrice [1, 3] 0 = maxPrices [1, 3]
    ∧ tickPrice [1, 3] 4 = minPrices [1, 3] := by
  obtain ⟨h1, -, h3, -, h5, -⟩ := yTicks_amended [1, 3] (by simp)
  exact ⟨h1, h3, h5 (by norm_num [minPrices, maxPrices, List.foldl, min_def, max_def])⟩

/-- C8 (counterexample): at `x = 999.999` (so `x ≥ 1`) the card formatter
returns `"$1000.00"` — `toFixed(2)` rounds up across the thousands boundary
without inserting the separator — while en-US locale currency formatting of
the same value is `"$1,000.00"`.  The `x ≥ 1` clause of the claim fails. -/
theorem formatPrice_card_cex :
    (1 : ℚ) ≤ 999999/1000
    ∧ cardFormatPrice (999999/1000) ≠ intlCurrencyUSD (999999/1000) := by
  refine ⟨by norm_num, ?_⟩
  rw [card_carry _ (by norm_num) (by norm_num),
    intl_carry _ (by norm_num) (by norm_num)]
  decide

/-- C8 (amended): the card `formatPrice` satisfies — absent or zero input →
the literal `"$0.00"`; `0 < x < 0.01` → six fraction digits; `0.01 ≤ x < 1`
→ four fraction digits; `1 ≤ x < 999.995` or `x ≥ 1000` → exactly the
en-US locale currency format with thousands separators and two fraction
digits; on the remaining carry interval `999.995 ≤ x < 1000` it returns
`"$1000.00"` (still two fraction digits, but without the separator that
locale formatting `"$1,000.00"` would produce). -/
theorem formatPrice_card_amended (z a b c d e : ℚ)
    (hz : z = 0) (ha1 : 0 < a) (ha2 : a < 1/100) (hb1 : 1/100 ≤ b) (hb2 : b < 1)
    (hc1 : 1 ≤ c) (hc2 : c < 199999/200) (hd : 1000 ≤ d)
    (he1 : 199999/200 ≤ e) (he2 : e < 1000) :
    cardFormatPriceOpt none = "$0.00"
    ∧ cardFormatPrice z = "$0.00"
    ∧ cardFormatPrice a = "$" ++ jsToFixed 6 a
    ∧ cardFormatPrice b = "$" ++ jsToFixed 4 b
    ∧ cardFormatPrice c = intlCurrencyUSD c
    ∧ cardFormatPrice d = intlCurrencyUSD d
    ∧ cardFormatPrice e = "$1000.00" ∧ intlCurrencyUSD e = "$1,000.00" := by
  refine ⟨rfl, ?_, ?_, ?_, card_eq_intl c hc1 hc2, card_eq_intl_ge d hd,
    card_carry e he1 he2, intl_carry e he1 he2⟩
  · rw [hz]; unfold cardFormatPrice; rw [if_pos rfl]
  · unfold cardFormatPrice; rw [if_neg (ne_of_gt ha1), if_pos ha2]
  · unfold cardFormatPrice
    rw [if_neg (by intro hh; rw [hh] at hb1; norm_num at hb1),
      if_neg (not_lt.mpr hb1), if_pos hb2]

/-- C8 (witness): the amended statement at `0`, `0.005`, `0.1`, `2`, `5000`
and `999.999`. -/
theorem formatPrice_card_witness :
    cardFormatPriceOpt none = "$0.00"
    ∧ cardFormatPrice 0 = "$0.00"
    ∧ cardFormatPrice (1/200) = "$" ++ jsToFixed 6 (1/200)
    ∧ cardFormatPrice (1/10) = "$" ++ jsToFixed 4 (1/10)
    ∧ cardFormatPrice 2 = intlCurrencyUSD 2
    ∧ cardFormatPrice 5000 = intlCurrencyUSD 5000
    ∧ cardFormatPrice (999999/1000) = "$1000.00"
    ∧ intlCurrencyUSD (999999/1000) = "$1,000.00" :=
  formatPrice_card_amended 0 (1/200) (1/10) 2 5000 (999999/1000)
    rfl (by norm_num) (by norm_num) (by norm_num) (by norm_num)
    (by norm_num) (by norm_num) (by norm_num) (by norm_num) (by norm_num)

/-- C10 (counterexample): the two `formatPrice` functions disagree at
`999.999`: the card component returns `"$1000.00"` (its extra `toFixed(2)`
branch), the modal returns `"$1,000.00"` (locale formatting). -/
theorem formatters_differ_cex :
    cardFormatPrice (999999/1000) ≠ modalFormatPrice (999999/1000) := by
  rw [card_carry _ (by norm_num) (by norm_num),
    modal_eq_intl _ (by norm_num),
    intl_carry _ (by norm_num) (by norm_num)]
  decide

/-- C10 (amended): the card and modal formatters return identical strings
for every input below 1, on `[1, 999.995)`, and from 1000 upward; they
differ exactly on the carry interval `999.995 ≤ x < 1000`, where rounding
to two fraction digits reaches 1000 and the card's `toFixed(2)` prints
`"$1000.00"` while the modal's locale formatting prints `"$1,000.00"`. -/
theorem formatters_agree_amended (a b c d : ℚ) (ha : a < 1)
    (hb1 : 1 ≤ b) (hb2 : b < 199999/200) (hc : 1000 ≤ c)
    (hd1 : 199999/200 ≤ d) (hd2 : d < 1000) :
    cardFormatPrice a = modalFormatPrice a
    ∧ cardFormatPrice b = modalFormatPrice b
    ∧ cardFormatPrice c = modalFormatPrice c
    ∧ cardFormatPrice d = "$1000.00" ∧ modalFormatPrice d = "$1,000.00" := by
  refine ⟨formats_agree_lt_one a ha, ?_, ?_, card_carry d hd1 hd2, ?_⟩
  · rw [card_eq_intl b hb1 hb2, modal_eq_intl b hb1]
  · rw [card_eq_intl_ge c hc, modal_eq_intl c (by linarith)]
  · rw [modal_eq_intl d (by linarith), intl_carry d hd1 hd2]

/-- C10 (witness): the amended statement at `0.5`, `2`, `5000`, `999.999`. -/
theorem formatters_agree_witness :
    cardFormatPrice (1/2) = modalFormatPrice (1/2)
    ∧ cardFormatPrice 2 = modalFormatPrice 2
    ∧ cardFormatPrice 5000 = modalFormatPrice 5000
    ∧ cardFormatPrice (999999/1000) = "$1000.00"
    ∧ modalFormatPrice (999999/1000) = "$1,000.00" :=
  formatters_agree_amended (1/2) 2 5000 (999999/1000)
    (by norm_num) (by norm_num) (by norm_num) (by norm_num) (by norm_num) (by norm_num)

end CryptoTracker
